import Mathlib

/-!
Verification development for the task-execution and retrieval pipeline of the
`a2a-langgraph-langchain` repository.

The Python sources are shallowly embedded as executable Lean definitions:

* `backend/data/cache_manager.py` — `CacheManager.get` / `CacheManager.set`,
  with the in-memory `dict` modelled as an insertion-ordered association list
  (Python 3.7+ dicts preserve insertion order, which matters for the stable
  `sorted(...)` call used by eviction);
* `backend/data/vector_store.py` — `get_embedding` and `search`;
* `backend/agents/agent.py` — `get_agent_response` and the `stream`
  orchestration (cache lookup, progress events, web-search escalation,
  cache store);
* `backend/agent_executor.py` — `_validate_request`, `execute` and the
  performance-metric counters.

External collaborators (the LangGraph reasoning runtime, the Serper web search
HTTP call, the Chroma similarity query, Python's `hash`, `hashlib.md5` and the
Gemini embedding API) are passed in as explicit function/value parameters, so
every run of the pipeline is a pure function of its inputs.  Wall-clock times
(`time.time()` readings) are likewise explicit rational parameters.
-/

namespace A2ASpec

/-! ## Response cache (`backend/data/cache_manager.py`) -/

/-- One slot of `CacheManager.cache`: the dict literal
`{'value': value, 'timestamp': time.time(), 'ttl': ttl}` stored by `set`.
(`get` reads the ttl with `item.get('ttl', 3600)`, but every entry written by
`set` carries the key, so the field is always present.) -/
structure CacheEntry (α : Type) where
  value : α
  timestamp : ℚ
  ttl : ℚ
deriving DecidableEq

/-- `self.cache : Dict[str, ...]` — a Python dict, modelled as an
insertion-ordered association list with (by construction) unique keys. -/
abbrev CacheDict (α : Type) := List (String × CacheEntry α)

/-- Comparison used by eviction: `key=lambda k: self.cache[k]['timestamp']`. -/
def entryLE {α : Type} (p q : String × CacheEntry α) : Prop :=
  p.2.timestamp ≤ q.2.timestamp

instance {α : Type} : DecidableRel (@entryLE α) :=
  fun p q => inferInstanceAs (Decidable (p.2.timestamp ≤ q.2.timestamp))

instance {α : Type} : IsTotal (String × CacheEntry α) entryLE :=
  ⟨fun a b => le_total a.2.timestamp b.2.timestamp⟩

instance {α : Type} : IsTrans (String × CacheEntry α) entryLE :=
  ⟨fun _ _ _ h h' => le_trans h h'⟩

/-- `sorted(self.cache.keys(), key=lambda k: self.cache[k]['timestamp'])`:
Python's `sorted` is a stable ascending sort; it is modelled by the (equally
stable) insertion sort over the insertion-ordered entry list. -/
def sortByTimestamp {α : Type} (c : CacheDict α) : CacheDict α :=
  List.insertionSort entryLE c

/-- `oldest_keys = sorted(...)[:100]` (with the batch size as a parameter). -/
def oldestKeys {α : Type} (c : CacheDict α) (n : ℕ) : List String :=
  ((sortByTimestamp c).take n).map (fun p => p.1)

/-- `for old_key in oldest_keys: del self.cache[old_key]` — the evicted keys
are removed from the dict, all other entries keep their order. -/
def evictOldest {α : Type} (c : CacheDict α) (n : ℕ) : CacheDict α :=
  c.filter (fun p => ¬ p.1 ∈ oldestKeys c n)

/-- Python dict assignment `self.cache[key] = entry`: an existing key keeps its
position in iteration order and gets the new payload, a fresh key is appended
at the end. -/
def dictInsert {α : Type} (c : CacheDict α) (key : String) (e : CacheEntry α) :
    CacheDict α :=
  if c.any (fun p => p.1 == key) then
    c.map (fun p => if p.1 == key then (key, e) else p)
  else c ++ [(key, e)]

/-- `CacheManager.get(key)`: a hit is live iff
`time.time() - item['timestamp'] < item['ttl']`; an expired entry is deleted
(`del self.cache[key]`) and `None` is returned.  The returned pair is
(result, cache state after the call). -/
def CacheManager.get {α : Type} (c : CacheDict α) (key : String) (now : ℚ) :
    Option α × CacheDict α :=
  match c.find? (fun p => p.1 == key) with
  | none => (none, c)
  | some p =>
    if now - p.2.timestamp < p.2.ttl then (some p.2.value, c)
    else (none, c.filter (fun q => ¬ q.1 == key))

/-- `CacheManager.set(key, value, ttl)` with the capacity bound
(`self.max_size`, an instance attribute initialised to 1000) and the eviction
batch size (the literal `100` in the source) as parameters:
if `len(self.cache) >= self.max_size`, the `batch` oldest-by-timestamp keys
are deleted first, then the new entry is stored with `timestamp = time.time()`. -/
def CacheManager.setP {α : Type} (maxSize batch : ℕ) (c : CacheDict α)
    (key : String) (v : α) (ttl now : ℚ) : CacheDict α :=
  dictInsert (if maxSize ≤ c.length then evictOldest c batch else c) key ⟨v, now, ttl⟩

/-- `CacheManager.set` exactly as shipped: `max_size = 1000`, batch `100`. -/
def CacheManager.set {α : Type} (c : CacheDict α) (key : String) (v : α)
    (ttl now : ℚ) : CacheDict α :=
  CacheManager.setP 1000 100 c key v ttl now

/-- Folding a sequence of `set` calls (key, value, ttl, call time) over an
initially empty cache. -/
def runSets {α : Type} (ops : List (String × α × ℚ × ℚ)) : CacheDict α :=
  ops.foldl (fun c op => CacheManager.set c op.1 op.2.1 op.2.2.1 op.2.2.2) []

/-- A Python dict never holds two identical keys; caches built by the code
have pairwise-distinct keys. -/
def NodupKeys {α : Type} (c : CacheDict α) : Prop :=
  (c.map (fun p => p.1)).Nodup

instance {α : Type} (c : CacheDict α) : Decidable (NodupKeys c) := by
  unfold NodupKeys
  infer_instance

/-! ## Agent orchestration (`backend/agents/agent.py`)

The LangGraph runtime (`self.graph`) is the external Reasoning Oracle: one run
of it is summarised by the sequence of tool-call names observed while
streaming plus the final `structured_response` (`None` when the run produced
no valid `ResponseFormat`).  `web_search.invoke` is the external web-search
collaborator: `none` models the call raising, `some rs` models it returning
the list `rs`.  Python's `hash` is the parameter `hashFn`. -/

/-- `ResponseFormat.status : Literal['input_required', 'completed', 'error']`. -/
inductive RStatus
  | input_required
  | completed
  | error
deriving DecidableEq

/-- The pydantic `ResponseFormat` model returned by the reasoning runtime
(`processing_time` is never read by `get_agent_response`, so it is omitted). -/
structure ResponseFormat where
  status : RStatus
  message : String
  confidence : ℚ
  sources : List String
deriving DecidableEq

/-- The result dict flowing through `invoke`/`stream`/`get_agent_response`.
`tools_used` and `processing_time` default to `[]`/`0` for dicts that lack the
keys in Python. -/
structure AgentResult where
  is_task_complete : Bool
  require_user_input : Bool
  content : String
  confidence : ℚ
  sources : List String
  from_cache : Bool
  processing_time : ℚ
  tools_used : List String
deriving DecidableEq

/-- `LangGraphAgent.get_agent_response`: maps the structured response (or its
absence) onto the base response dict. -/
def getAgentResponse (structured : Option ResponseFormat) : AgentResult :=
  let base : AgentResult :=
    { is_task_complete := true
      require_user_input := false
      content := "Response processed successfully."
      confidence := 1
      sources := []
      from_cache := false
      processing_time := 0
      tools_used := [] }
  match structured with
  | none => { base with content := "The agent failed to generate a valid response." }
  | some r =>
    match r.status with
    | RStatus.input_required =>
        { base with
          is_task_complete := false
          require_user_input := true
          content := r.message
          confidence := r.confidence
          sources := r.sources }
    | RStatus.error =>
        { base with
          is_task_complete := false
          require_user_input := true
          content := r.message
          confidence := 0
          sources := [] }
    | RStatus.completed =>
        { base with
          is_task_complete := true
          require_user_input := false
          content := r.message
          confidence := r.confidence
          sources := r.sources }

/-- One entry of the list returned by the `web_search` tool. -/
structure WebResult where
  title : String
  snippet : String
  link : String
deriving DecidableEq

/-- Summary of one LangGraph run (the Reasoning Oracle collaborator). -/
structure OracleRun where
  toolCalls : List String
  structured : Option ResponseFormat
deriving DecidableEq

/-- A value yielded by `LangGraphAgent.stream`: either an intermediate
progress dict (`is_task_complete=False, require_user_input=False`, fixed
`content`, `tool_used`) or the terminal result dict. -/
inductive StreamEvent
  | progress (content : String) (tool : String)
  | final (r : AgentResult)
deriving DecidableEq

/-- The per-tool progress yields of the `stream` loop: a fixed phrase per
known tool name, nothing for unknown names. -/
def mkToolEvent (name : String) : Option StreamEvent :=
  if name = "rag_search" then
    some (StreamEvent.progress "🔍 Searching product database with vector similarity..." name)
  else if name = "web_search" then
    some (StreamEvent.progress "🌐 Searching web for current information..." name)
  else if name = "shop_information_rag" then
    some (StreamEvent.progress "🏪 Retrieving shop information..." name)
  else none

/-- `cache_key = f"query:{hash(query)}:{sessionId}"`. -/
def cacheKeyOf (hashFn : String → Int) (query sessionId : String) : String :=
  "query:" ++ toString (hashFn query) ++ ":" ++ sessionId

/-- Python's `s or fallback` for strings: the fallback fires on `""`. -/
def pyOr (s fallback : String) : String := if s = "" then fallback else s

/-- Everything observable about one `stream` run: the yielded values in
order, the terminal dict, the cache state afterwards, whether the LangGraph
oracle was invoked, the arguments of the direct `web_search.invoke` fallback
call (if it was attempted), and how many fallback attempts were made. -/
structure StreamOutcome where
  events : List StreamEvent
  finalResult : AgentResult
  cacheAfter : CacheDict AgentResult
  oracleInvoked : Bool
  webSearchArgs : Option (String × ℕ)
  escalationAttempts : ℕ
deriving DecidableEq

/-- Tail of `stream` shared by all non-cache-hit paths: store the final dict
iff `cache_manager and final_result.get('is_task_complete')`, then yield it. -/
def finishStream (enableCaching : Bool) (cacheTtl now : ℚ) (cacheKey : String)
    (c : CacheDict AgentResult) (progress : List StreamEvent) (fr : AgentResult)
    (args : Option (String × ℕ)) (attempts : ℕ) : StreamOutcome :=
  { events := progress ++ [StreamEvent.final fr]
    finalResult := fr
    cacheAfter :=
      if enableCaching && fr.is_task_complete then
        CacheManager.set c cacheKey fr cacheTtl now
      else c
    oracleInvoked := true
    webSearchArgs := args
    escalationAttempts := attempts }

/-- The cache-miss continuation of `stream` (everything after the early
`cached_result` return): oracle run, per-tool progress yields, final result
extraction, the optional direct web-search fallback, cache store, final
yield.  `c2` is the cache state left behind by the lookup.
`webOutcome = none` models `web_search.invoke` raising: the exception is
swallowed and the pre-escalation dict is kept. -/
def missStream (enableCaching enableWebSearch : Bool) (cacheTtl : ℚ)
    (cacheKey : String) (c2 : CacheDict AgentResult) (query : String)
    (oracle : OracleRun) (webOutcome : Option (List WebResult))
    (now t1 t2 : ℚ) : StreamOutcome :=
  let progress := oracle.toolCalls.filterMap mkToolEvent
  let fr1 : AgentResult :=
    { getAgentResponse oracle.structured with
      processing_time := t1, tools_used := oracle.toolCalls.dedup }
  if !fr1.is_task_complete && fr1.require_user_input && enableWebSearch then
    let escEv := StreamEvent.progress
      "🌐 No exact match in database. Searching the web for the latest information..."
      "web_search"
    match webOutcome with
    | none =>
        finishStream enableCaching cacheTtl now cacheKey c2
          (progress ++ [escEv]) fr1 (some (query, 3)) 1
    | some webResults =>
        let fr2 : AgentResult :=
          match webResults with
          | top :: _ =>
              let synthesized :=
                if top.link ≠ "" then top.snippet ++ "\n\nNguồn: " ++ top.link
                else top.snippet
              { is_task_complete := true
                require_user_input := false
                content := pyOr synthesized "Không tìm thấy thông tin phù hợp trên web."
                confidence := 6/10
                sources := ((webResults.filter (fun r => r.link ≠ "")).map
                  (fun r => r.link)).take 3
                from_cache := false
                processing_time := t2
                tools_used := [] }
          | [] =>
              { is_task_complete := true
                require_user_input := false
                content := pyOr fr1.content "Không thể truy cập công cụ tìm kiếm web lúc này."
                confidence := 1/2
                sources := []
                from_cache := false
                processing_time := t2
                tools_used := [] }
        finishStream enableCaching cacheTtl now cacheKey c2
          (progress ++ [escEv]) fr2 (some (query, 3)) 1
  else
    finishStream enableCaching cacheTtl now cacheKey c2 progress fr1 none 0

/-- `LangGraphAgent.stream(query, sessionId)`.

On a cache hit, `cached_result['from_cache'] = True` and
`cached_result['processing_time'] = ...` mutate the very dict object held by
the cache slot (Python reference semantics), then it is yielded and the
generator returns — no oracle call, no progress events, no store.  On a miss
the run continues as `missStream`.  `now` is the `time.time()` reading used
for cache liveness and the stored timestamp; `t1`/`t2` are the two
elapsed-time readings written into `processing_time`. -/
def streamRun (enableCaching enableWebSearch : Bool) (cacheTtl : ℚ)
    (hashFn : String → Int) (cache : CacheDict AgentResult)
    (query sessionId : String) (oracle : OracleRun)
    (webOutcome : Option (List WebResult)) (now t1 t2 : ℚ) : StreamOutcome :=
  let cacheKey := cacheKeyOf hashFn query sessionId
  let looked := if enableCaching then CacheManager.get cache cacheKey now else (none, cache)
  match looked.1 with
  | some v =>
      let v2 := { v with from_cache := true, processing_time := t1 }
      { events := [StreamEvent.final v2]
        finalResult := v2
        cacheAfter := looked.2.map
          (fun p => if p.1 == cacheKey then (p.1, { p.2 with value := v2 }) else p)
        oracleInvoked := false
        webSearchArgs := none
        escalationAttempts := 0 }
  | none =>
      missStream enableCaching enableWebSearch cacheTtl cacheKey looked.2
        query oracle webOutcome now t1 t2

/-- Characterisation of the statuses whose `get_agent_response` image has
`is_task_complete=False, require_user_input=True` — exactly the statuses that
arm the web-search fallback. -/
def oracleTriggers : Option ResponseFormat → Bool
  | none => false
  | some r =>
    match r.status with
    | RStatus.completed => false
    | RStatus.input_required => true
    | RStatus.error => true

/-! ## Vector store (`backend/data/vector_store.py`)

The Gemini embedding API (`provider`, `none` = the call raised), `hashlib.md5`
(`md5hex`) and the Chroma similarity query (`chroma`, `Except.error` = the
call raised) are external collaborators passed as parameters. -/

/-- `get_embedding`'s fault fallback:
`[float(ord(c)) for c in hashlib.md5(text.encode()).hexdigest()[:384]]`. -/
def fallbackEmbedding (md5hex : String → String) (text : String) : List ℚ :=
  ((md5hex text).data.take 384).map (fun c => (c.toNat : ℚ))

/-- `VectorStore.get_embedding`: the Gemini embedding on success, the
hash-based fallback when the provider faults. -/
def VectorStore.get_embedding (provider : String → Option (List ℚ))
    (md5hex : String → String) (text : String) : List ℚ :=
  match provider text with
  | some v => v
  | none => fallbackEmbedding md5hex text

/-- One formatted retrieval result of `VectorStore.search`. -/
structure SearchResult where
  content : String
  metadata : List (String × String)
  distance : ℚ
  relevance_score : ℚ
deriving DecidableEq

/-- Python's `round(x, 3)`.  (CPython rounds half to even; the claims relate
code and spec through the same rounding map applied on both sides, so the
exact tie rule is immaterial and half-up is used.) -/
def round3 (x : ℚ) : ℚ := (Int.floor (x * 1000 + 1/2) : ℚ) / 1000

/-- The slice of the Chroma query response that the code reads: row 0 of
`documents`, `metadatas` and `distances` (`none` models a falsy field). -/
structure ChromaResult where
  documents : Option (List String)
  metadatas : Option (List (List (String × String)))
  distances : Option (List ℚ)

/-- `results['metadatas'][0][i] if results['metadatas'] else {}` — an
out-of-range index raises. -/
def metaAt (metas : Option (List (List (String × String)))) (i : ℕ) :
    Except Unit (List (String × String)) :=
  match metas with
  | none => Except.ok []
  | some ms =>
    match ms.get? i with
    | some m => Except.ok m
    | none => Except.error ()

/-- `results['distances'][0][i] if results['distances'] else 0.0` — an
out-of-range index raises. -/
def distAt (dists : Option (List ℚ)) (i : ℕ) : Except Unit ℚ :=
  match dists with
  | none => Except.ok 0
  | some ds =>
    match ds.get? i with
    | some x => Except.ok x
    | none => Except.error ()

/-- The result-formatting loop of `VectorStore.search`
(`for i, doc in enumerate(results['documents'][0])`), building one result per
document with `relevance_score = round(1 - distance, 3)`. -/
def formatResults (metas : Option (List (List (String × String))))
    (dists : Option (List ℚ)) : List String → ℕ → Except Unit (List SearchResult)
  | [], _ => Except.ok []
  | d :: rest, i =>
    match metaAt metas i with
    | Except.error e => Except.error e
    | Except.ok m =>
      match distAt dists i with
      | Except.error e => Except.error e
      | Except.ok dist =>
        match formatResults metas dists rest (i + 1) with
        | Except.error e => Except.error e
        | Except.ok rest2 =>
          Except.ok ({ content := d, metadata := m, distance := dist,
                       relevance_score := round3 (1 - dist) } :: rest2)

/-- `k = k or settings.vector_search_k`: Python's `or` replaces both `None`
and `0` by the configured default (5). -/
def kDefault : Option ℕ → ℕ
  | none => 5
  | some n => if n = 0 then 5 else n

/-- `VectorStore.search`: embed the query (total by construction), run the
Chroma similarity query, format the rows; any exception inside the `try`
block degrades to the empty result list. -/
def VectorStore.search (provider : String → Option (List ℚ))
    (md5hex : String → String)
    (chroma : List ℚ → ℕ → Except String ChromaResult)
    (query : String) (k : Option ℕ) : List SearchResult :=
  match chroma (VectorStore.get_embedding provider md5hex query) (kDefault k) with
  | Except.error _ => []
  | Except.ok res =>
    match res.documents with
    | none => []
    | some docs =>
      if docs = [] then []
      else
        match formatResults res.metadatas res.distances docs 0 with
        | Except.error _ => []
        | Except.ok out => out

/-! ## Executor (`backend/agent_executor.py`) -/

/-- `self.performance_metrics`. -/
structure Metrics where
  total_requests : ℕ
  successful_requests : ℕ
  failed_requests : ℕ
  total_response_time : ℚ
  cache_hits : ℕ
  cache_misses : ℕ
deriving DecidableEq

/-- The zeroed metrics dict built in `A2AAgentExecutor.__init__`. -/
def metricsZero : Metrics := ⟨0, 0, 0, 0, 0, 0⟩

/-- Python `str.strip()` (over whitespace characters). -/
def pyStrip (s : String) : String :=
  ⟨((s.data.dropWhile Char.isWhitespace).reverse.dropWhile Char.isWhitespace).reverse⟩

/-- `A2AAgentExecutor._validate_request`, returning `true` on error:
`not user_input or len(user_input.strip()) < 2`, then
`len(user_input) > settings.max_context_length`. -/
def validateRequest (maxLen : ℕ) (text : String) : Bool :=
  if text = "" ∨ (pyStrip text).length < 2 then true
  else if maxLen < text.length then true
  else false

inductive ExecError
  | invalidParams
  | internalError
deriving DecidableEq

/-- Observable outcome of one `execute` call. -/
structure ExecOutcome where
  metrics : Metrics
  cacheAfter : CacheDict AgentResult
  raised : Option ExecError
  oracleInvoked : Bool
deriving DecidableEq

/-- Inputs of one `execute` call: the query text, the task context id, the
oracle/web collaborator behaviour for this run, whether processing the stream
raised mid-task (the `except` path), and the time readings. -/
structure ExecRequest where
  text : String
  ctxId : String
  oracle : OracleRun
  webOutcome : Option (List WebResult)
  processingFault : Bool
  now : ℚ
  t1 : ℚ
  t2 : ℚ
  rt : ℚ
deriving DecidableEq

/-- `A2AAgentExecutor.execute`: metric bookkeeping around one `stream` run.
The post-stream guard
`if 'from_cache' in locals() and locals().get('from_cache')` tests a local
variable that is bound nowhere in `execute`, so it is modelled by
`fromCacheLocal = none`, never assigned — the guard is constantly false. -/
def executeRun (maxLen : ℕ) (enableCaching enableWebSearch : Bool)
    (cacheTtl : ℚ) (hashFn : String → Int) (m : Metrics)
    (cache : CacheDict AgentResult) (r : ExecRequest) : ExecOutcome :=
  let m1 := { m with total_requests := m.total_requests + 1 }
  if validateRequest maxLen r.text then
    { metrics := { m1 with failed_requests := m1.failed_requests + 1 }
      cacheAfter := cache
      raised := some ExecError.invalidParams
      oracleInvoked := false }
  else
    let s := streamRun enableCaching enableWebSearch cacheTtl hashFn cache
      r.text r.ctxId r.oracle r.webOutcome r.now r.t1 r.t2
    if r.processingFault then
      { metrics := { m1 with failed_requests := m1.failed_requests + 1 }
        cacheAfter := s.cacheAfter
        raised := some ExecError.internalError
        oracleInvoked := s.oracleInvoked }
    else
      let m2 := { m1 with
        total_response_time := m1.total_response_time + r.rt
        successful_requests := m1.successful_requests + 1 }
      let fromCacheLocal : Option Bool := none
      let m3 :=
        match fromCacheLocal with
        | some true => { m2 with cache_hits := m2.cache_hits + 1 }
        | _ => { m2 with cache_misses := m2.cache_misses + 1 }
      { metrics := m3
        cacheAfter := s.cacheAfter
        raised := none
        oracleInvoked := s.oracleInvoked }

/-- A sequence of requests against one executor instance. -/
def runExecutes (maxLen : ℕ) (ec ewc : Bool) (cacheTtl : ℚ)
    (hashFn : String → Int) (st : Metrics × CacheDict AgentResult)
    (reqs : List ExecRequest) : Metrics × CacheDict AgentResult :=
  reqs.foldl (fun acc r =>
    let o := executeRun maxLen ec ewc cacheTtl hashFn acc.1 acc.2 r
    (o.metrics, o.cacheAfter)) st

/-! ## Claim C2 — cache TTL semantics -/

/-- C2: for every key, `CacheManager.get` returns the stored value iff it is
called strictly before `stored_at + ttl`; a call at or after that instant
returns absent, purges the entry, and any subsequent `get` of the same key
also returns absent. -/
theorem c2_cache_ttl {α : Type} (c : CacheDict α) (key : String)
    (e : CacheEntry α) (now : ℚ)
    (hfind : c.find? (fun p => p.1 == key) = some (key, e)) :
    ((CacheManager.get c key now).1 = some e.value ↔ now < e.timestamp + e.ttl)
    ∧ (e.timestamp + e.ttl ≤ now →
        (CacheManager.get c key now).1 = none
        ∧ ∀ now2 : ℚ,
            (CacheManager.get (CacheManager.get c key now).2 key now2).1 = none) := by
  have hlive : now - e.timestamp < e.ttl ↔ now < e.timestamp + e.ttl :=
    ⟨fun h => by linarith, fun h => by linarith⟩
  refine ⟨?_, ?_⟩
  · by_cases h : now - e.timestamp < e.ttl
    · simp [CacheManager.get, hfind, h, hlive.mp h]
    · have h2 : ¬ now < e.timestamp + e.ttl := fun hc => h (hlive.mpr hc)
      simp [CacheManager.get, hfind, h, h2]
  · intro hexp
    have hnl : ¬ now - e.timestamp < e.ttl := by linarith
    have hnone : (c.filter (fun q => ¬ q.1 == key)).find? (fun p => p.1 == key) = none := by
      rw [List.find?_eq_none]
      intro x hx
      rcases List.mem_filter.mp hx with ⟨-, hpx⟩
      simpa using hpx
    have hfalse : c.find? (fun _ => false) = none :=
      List.find?_eq_none.mpr (by intro a ha; simp)
    refine ⟨by simp [CacheManager.get, hfind, hnl], fun now2 => ?_⟩
    simp [CacheManager.get, hfind, hnl, hnone, hfalse]

/-- Concrete witness for C2: a single entry stored at time 0 with ttl 10,
queried at time 12 (expired). -/
theorem c2_cache_ttl_witness :
    (([("k", (⟨42, 0, 10⟩ : CacheEntry ℕ))] : CacheDict ℕ).find?
        (fun p => p.1 == "k") = some ("k", ⟨42, 0, 10⟩))
    ∧ (((CacheManager.get ([("k", ⟨42, 0, 10⟩)] : CacheDict ℕ) "k" 12).1 = some 42
          ↔ (12 : ℚ) < 0 + 10)
        ∧ ((0 : ℚ) + 10 ≤ 12 →
            (CacheManager.get ([("k", ⟨42, 0, 10⟩)] : CacheDict ℕ) "k" 12).1 = none
            ∧ ∀ now2 : ℚ,
                (CacheManager.get
                  (CacheManager.get ([("k", ⟨42, 0, 10⟩)] : CacheDict ℕ) "k" 12).2
                  "k" now2).1 = none)) :=
  ⟨by decide, c2_cache_ttl ([("k", ⟨42, 0, 10⟩)] : CacheDict ℕ) "k" ⟨42, 0, 10⟩ 12 (by decide)⟩

/-! ## Claim C3 — cache capacity and eviction -/

lemma keys_dictInsert_of_mem {α : Type} (c : CacheDict α) (key : String)
    (e : CacheEntry α) (h : c.any (fun p => p.1 == key) = true) :
    (dictInsert c key e).map (fun p => p.1) = c.map (fun p => p.1) := by
  unfold dictInsert
  rw [if_pos h, List.map_map]
  apply List.map_congr_left
  intro p _
  by_cases hp : p.1 == key
  · simp only [Function.comp_apply, if_pos hp]
    exact (eq_of_beq hp).symm
  · simp only [Function.comp_apply, if_neg hp]

lemma keys_dictInsert_of_not_mem {α : Type} (c : CacheDict α) (key : String)
    (e : CacheEntry α) (h : ¬ c.any (fun p => p.1 == key) = true) :
    (dictInsert c key e).map (fun p => p.1) = c.map (fun p => p.1) ++ [key] := by
  unfold dictInsert
  rw [if_neg h, List.map_append]
  rfl

lemma nodupKeys_dictInsert {α : Type} {c : CacheDict α} (key : String)
    (e : CacheEntry α) (h : NodupKeys c) : NodupKeys (dictInsert c key e) := by
  unfold NodupKeys at *
  by_cases hmem : c.any (fun p => p.1 == key) = true
  · rw [keys_dictInsert_of_mem c key e hmem]; exact h
  · rw [keys_dictInsert_of_not_mem c key e hmem]
    have hnot : key ∉ c.map (fun p => p.1) := by
      intro hk
      rcases List.mem_map.mp hk with ⟨p, hp, hpk⟩
      exact hmem (List.any_eq_true.mpr ⟨p, hp, by simp [hpk]⟩)
    simp [List.nodup_append, h, hnot]

lemma length_dictInsert_le {α : Type} (c : CacheDict α) (key : String)
    (e : CacheEntry α) : (dictInsert c key e).length ≤ c.length + 1 := by
  unfold dictInsert
  by_cases hmem : c.any (fun p => p.1 == key) = true
  · rw [if_pos hmem, List.length_map]; omega
  · rw [if_neg hmem, List.length_append]; simp

lemma nodupKeys_evictOldest {α : Type} {c : CacheDict α} (n : ℕ)
    (h : NodupKeys c) : NodupKeys (evictOldest c n) := by
  unfold NodupKeys at *
  exact ((List.filter_sublist c).map (fun p => p.1)).nodup h

lemma mem_evictOldest_drop {α : Type} {c : CacheDict α} {n : ℕ}
    {q : String × CacheEntry α} (hq : q ∈ evictOldest c n) :
    q ∈ (sortByTimestamp c).drop n := by
  rcases List.mem_filter.mp hq with ⟨hqc, hpred⟩
  have hqk : q.1 ∉ oldestKeys c n := by simpa using hpred
  have hqs : q ∈ (sortByTimestamp c).take n ++ (sortByTimestamp c).drop n := by
    rw [List.take_append_drop]
    exact (List.perm_insertionSort entryLE c).mem_iff.mpr hqc
  rcases List.mem_append.mp hqs with htake | hdrop
  · exact absurd (List.mem_map_of_mem (fun p => p.1) htake) hqk
  · exact hdrop

lemma evictOldest_perm_drop {α : Type} {c : CacheDict α} (n : ℕ)
    (hk : NodupKeys c) :
    (evictOldest c n).Perm ((sortByTimestamp c).drop n) := by
  have hs : (sortByTimestamp c).Perm c := List.perm_insertionSort entryLE c
  have hkeys : ((sortByTimestamp c).map (fun p => p.1)).Nodup :=
    ((List.Perm.map (fun p : String × CacheEntry α => p.1) hs).nodup_iff).mpr hk
  have hperm : (evictOldest c n).Perm
      ((sortByTimestamp c).filter (fun p => ¬ p.1 ∈ oldestKeys c n)) := by
    unfold evictOldest
    exact (List.Perm.filter _ hs).symm
  have hsplit : sortByTimestamp c
      = (sortByTimestamp c).take n ++ (sortByTimestamp c).drop n :=
    (List.take_append_drop n (sortByTimestamp c)).symm
  have htake : ((sortByTimestamp c).take n).filter
      (fun p => ¬ p.1 ∈ oldestKeys c n) = ([] : CacheDict α) := by
    rw [List.filter_eq_nil_iff]
    intro p hp
    simp only [decide_eq_true_eq, Decidable.not_not]
    show p.1 ∈ oldestKeys c n
    exact List.mem_map_of_mem (fun p => p.1) hp
  have hdisj : ∀ q ∈ (sortByTimestamp c).drop n, q.1 ∉ oldestKeys c n := by
    intro q hq hmem
    have hnodup := hsplit ▸ hkeys
    rw [List.map_append, List.nodup_append] at hnodup
    exact hnodup.2.2 hmem (List.mem_map_of_mem (fun p => p.1) hq)
  have hdrop : ((sortByTimestamp c).drop n).filter
      (fun p => ¬ p.1 ∈ oldestKeys c n) = (sortByTimestamp c).drop n := by
    rw [List.filter_eq_self]
    intro q hq
    simpa using hdisj q hq
  have hfilter : (sortByTimestamp c).filter (fun p => ¬ p.1 ∈ oldestKeys c n)
      = (sortByTimestamp c).drop n := by
    conv_lhs => rw [hsplit]
    rw [List.filter_append, htake, hdrop, List.nil_append]
  exact hfilter ▸ hperm

lemma perm_take_append_evictOldest {α : Type} {c : CacheDict α} (n : ℕ)
    (hk : NodupKeys c) :
    c.Perm ((sortByTimestamp c).take n ++ evictOldest c n) := by
  have hs : c.Perm (sortByTimestamp c) := (List.perm_insertionSort entryLE c).symm
  have h2 : ((sortByTimestamp c).take n ++ (sortByTimestamp c).drop n).Perm
      ((sortByTimestamp c).take n ++ evictOldest c n) :=
    List.Perm.append_left _ (evictOldest_perm_drop n hk).symm
  have h3 : (sortByTimestamp c).Perm ((sortByTimestamp c).take n ++ evictOldest c n) := by
    conv_lhs => rw [← List.take_append_drop n (sortByTimestamp c)]
    exact h2
  exact hs.trans h3

lemma length_evictOldest {α : Type} {c : CacheDict α} {n : ℕ}
    (hk : NodupKeys c) (hn : n ≤ c.length) :
    (evictOldest c n).length + n = c.length := by
  have h1 : (evictOldest c n).length = ((sortByTimestamp c).drop n).length :=
    (evictOldest_perm_drop n hk).length_eq
  have h2 : (sortByTimestamp c).length = c.length :=
    List.length_insertionSort entryLE c
  rw [h1, List.length_drop, h2]
  omega

lemma evictOldest_timestamp_le {α : Type} (c : CacheDict α) (n : ℕ) :
    ∀ p ∈ (sortByTimestamp c).take n, ∀ q ∈ evictOldest c n,
      p.2.timestamp ≤ q.2.timestamp := by
  intro p hp q hq
  have hsorted : List.Sorted entryLE (sortByTimestamp c) :=
    List.sorted_insertionSort entryLE c
  have hsplit : sortByTimestamp c
      = (sortByTimestamp c).take n ++ (sortByTimestamp c).drop n :=
    (List.take_append_drop n (sortByTimestamp c)).symm
  have hpw : List.Pairwise entryLE
      ((sortByTimestamp c).take n ++ (sortByTimestamp c).drop n) :=
    hsplit ▸ hsorted
  rw [List.pairwise_append] at hpw
  exact hpw.2.2 p hp q (mem_evictOldest_drop hq)

lemma setP_preserves {α : Type} (maxSize batch : ℕ) {c : CacheDict α}
    (key : String) (v : α) (ttl now : ℚ)
    (hk : NodupKeys c) (hlen : c.length ≤ maxSize)
    (hb1 : 0 < batch) (hb2 : batch ≤ maxSize) :
    NodupKeys (CacheManager.setP maxSize batch c key v ttl now)
    ∧ (CacheManager.setP maxSize batch c key v ttl now).length ≤ maxSize := by
  unfold CacheManager.setP
  by_cases htrig : maxSize ≤ c.length
  · rw [if_pos htrig]
    have heq : c.length = maxSize := le_antisymm hlen htrig
    have hkv : NodupKeys (evictOldest c batch) := nodupKeys_evictOldest batch hk
    have hle : (evictOldest c batch).length + batch = c.length :=
      length_evictOldest hk (by omega)
    refine ⟨nodupKeys_dictInsert key _ hkv, ?_⟩
    have hdi := length_dictInsert_le (evictOldest c batch) key ⟨v, now, ttl⟩
    omega
  · rw [if_neg htrig]
    have hlt : c.length < maxSize := lt_of_not_le htrig
    refine ⟨nodupKeys_dictInsert key _ hk, ?_⟩
    have hdi := length_dictInsert_le c key ⟨v, now, ttl⟩
    omega

lemma runSets_invariant {α : Type} (ops : List (String × α × ℚ × ℚ)) :
    NodupKeys (runSets ops) ∧ (runSets ops).length ≤ 1000 := by
  unfold runSets
  suffices h : ∀ c : CacheDict α, NodupKeys c → c.length ≤ 1000 →
      NodupKeys (ops.foldl
        (fun c op => CacheManager.set c op.1 op.2.1 op.2.2.1 op.2.2.2) c)
      ∧ (ops.foldl
        (fun c op => CacheManager.set c op.1 op.2.1 op.2.2.1 op.2.2.2) c).length ≤ 1000 by
    exact h [] (by simp [NodupKeys]) (by simp)
  induction ops with
  | nil => intro c h1 h2; exact ⟨h1, h2⟩
  | cons op rest ih =>
    intro c h1 h2
    simp only [List.foldl_cons]
    have hstep := setP_preserves 1000 100
      op.1 op.2.1 op.2.2.1 op.2.2.2 h1 h2 (by omega) (by omega)
    exact ih _ hstep.1 hstep.2

/-- C3: after any sequence of `set` calls the cache never exceeds
`max_size = 1000` entries; and a `set` hitting the capacity check first purges
exactly the `batch` (shipped value 100) globally-oldest entries by stored
timestamp before inserting: the purged entries are precisely the first `batch`
of the timestamp-sorted entry list — `batch` many of them, together with the
survivors they partition the cache, and each purged entry's timestamp is at
most every survivor's. -/
theorem c3_cache_capacity :
    (∀ (α : Type) (ops : List (String × α × ℚ × ℚ)), (runSets ops).length ≤ 1000)
    ∧ (∀ (α : Type) (maxSize batch : ℕ) (c : CacheDict α) (key : String)
        (v : α) (ttl now : ℚ), NodupKeys c → maxSize ≤ c.length → batch ≤ c.length →
          CacheManager.setP maxSize batch c key v ttl now
              = dictInsert (evictOldest c batch) key ⟨v, now, ttl⟩
          ∧ (evictOldest c batch).length + batch = c.length
          ∧ c.Perm ((sortByTimestamp c).take batch ++ evictOldest c batch)
          ∧ ((sortByTimestamp c).take batch).length = batch
          ∧ ∀ p ∈ (sortByTimestamp c).take batch, ∀ q ∈ evictOldest c batch,
              p.2.timestamp ≤ q.2.timestamp) := by
  constructor
  · intro α ops
    exact (runSets_invariant ops).2
  · intro α maxSize batch c key v ttl now hk htrig hbatch
    refine ⟨?_, length_evictOldest hk hbatch, perm_take_append_evictOldest batch hk,
      ?_, evictOldest_timestamp_le c batch⟩
    · unfold CacheManager.setP
      rw [if_pos htrig]
    · have hlen : (sortByTimestamp c).length = c.length :=
        List.length_insertionSort entryLE c
      rw [List.length_take, hlen]
      exact min_eq_left hbatch

/-- Concrete witness for C3's hypothesis-bearing part: a full cache of
capacity 1, batch 1. -/
theorem c3_cache_capacity_witness :
    NodupKeys ([("a", ⟨0, 0, 1⟩)] : CacheDict ℕ)
    ∧ (1 ≤ ([("a", (⟨0, 0, 1⟩ : CacheEntry ℕ))] : CacheDict ℕ).length)
    ∧ (evictOldest ([("a", ⟨0, 0, 1⟩)] : CacheDict ℕ) 1).length + 1
        = ([("a", (⟨0, 0, 1⟩ : CacheEntry ℕ))] : CacheDict ℕ).length :=
  ⟨by decide, by decide,
    (c3_cache_capacity.2 ℕ 1 1 [("a", ⟨0, 0, 1⟩)] "b" 5 1 2
      (by decide) (by decide) (by decide)).2.1⟩

/-! ## Stream orchestration lemmas -/

lemma dictInsert_cons_ne {α : Type} (hd : String × CacheEntry α) (tl : CacheDict α)
    (k : String) (e : CacheEntry α) (h : (hd.1 == k) = false) :
    dictInsert (hd :: tl) k e = hd :: dictInsert tl k e := by
  have h' : ¬ (hd.1 = k) := by simpa using h
  unfold dictInsert
  by_cases ht : tl.any (fun p => p.1 == k) = true
  · rw [if_pos, if_pos ht]
    · simp [h, h']
    · simp [List.any_cons, h, ht]
  · rw [if_neg, if_neg ht]
    · simp
    · simp [List.any_cons, h, ht]

lemma find?_dictInsert {α : Type} (c : CacheDict α) (k : String) (e : CacheEntry α) :
    (dictInsert c k e).find? (fun p => p.1 == k) = some (k, e) := by
  induction c with
  | nil => simp [dictInsert]
  | cons hd tl ih =>
    by_cases hhd : (hd.1 == k) = true
    · have hany : (hd :: tl).any (fun p => p.1 == k) = true := by
        simp [List.any_cons, hhd]
      unfold dictInsert
      rw [if_pos hany, List.map_cons, if_pos hhd]
      exact List.find?_cons_of_pos _ (by simp)
    · have hhd' : (hd.1 == k) = false := by simpa using hhd
      rw [dictInsert_cons_ne hd tl k e hhd']
      rw [List.find?_cons_of_neg _ (by simp [hhd'])]
      exact ih

lemma get_after_set_live {α : Type} (c : CacheDict α) (k : String) (v : α)
    (ttl t0 now : ℚ) (hlive : now - t0 < ttl) :
    CacheManager.get (CacheManager.set c k v ttl t0) k now
      = (some v, CacheManager.set c k v ttl t0) := by
  unfold CacheManager.set CacheManager.setP CacheManager.get
  rw [find?_dictInsert]
  simp [hlive]

lemma streamRun_miss (ec ewc : Bool) (cacheTtl : ℚ) (hashFn : String → Int)
    (cache : CacheDict AgentResult) (q sid : String) (oracle : OracleRun)
    (web : Option (List WebResult)) (now t1 t2 : ℚ)
    (hmiss : ec = true → (CacheManager.get cache (cacheKeyOf hashFn q sid) now).1 = none) :
    streamRun ec ewc cacheTtl hashFn cache q sid oracle web now t1 t2
      = missStream ec ewc cacheTtl (cacheKeyOf hashFn q sid)
          (if ec then (CacheManager.get cache (cacheKeyOf hashFn q sid) now).2 else cache)
          q oracle web now t1 t2 := by
  cases ec with
  | false => simp [streamRun]
  | true =>
    have h := hmiss rfl
    simp [streamRun, h]

lemma missStream_escalation (ec ewc : Bool) (cacheTtl : ℚ) (k : String)
    (c2 : CacheDict AgentResult) (q : String) (oracle : OracleRun)
    (web : Option (List WebResult)) (now t1 t2 : ℚ) :
    (missStream ec ewc cacheTtl k c2 q oracle web now t1 t2).escalationAttempts
        = (if ewc && oracleTriggers oracle.structured then 1 else 0)
    ∧ (missStream ec ewc cacheTtl k c2 q oracle web now t1 t2).webSearchArgs
        = (if ewc && oracleTriggers oracle.structured then some (q, 3) else none) := by
  obtain ⟨tc, st⟩ := oracle
  rcases st with _ | ⟨s, msg, conf, srcs⟩
  · simp [missStream, getAgentResponse, oracleTriggers, finishStream]
  · cases s <;> cases ewc <;> rcases web with _ | rs <;>
      simp [missStream, getAgentResponse, oracleTriggers, finishStream]

/-! ## Claim C1 — escalation policy -/

/-- C1 counterexample: an oracle run ending with `status = 'error'` and web
search enabled does trigger the web-search fallback (one attempt, invoked with
the query and `max_results = 3`), because `get_agent_response` maps `'error'`
to the same `is_task_complete=False / require_user_input=True` flags that the
escalation guard tests — contradicting the claim that a terminal `error`
result triggers no escalation attempt. -/
theorem c1_error_status_triggers_escalation :
    (streamRun false true 3600 (fun _ => 0) [] "q" "s"
      ⟨[], some ⟨RStatus.error, "boom", 3/10, []⟩⟩ (some []) 0 1 2).escalationAttempts = 1
    ∧ (streamRun false true 3600 (fun _ => 0) [] "q" "s"
      ⟨[], some ⟨RStatus.error, "boom", 3/10, []⟩⟩ (some []) 0 1 2).webSearchArgs
        = some ("q", 3) := by
  decide

/-- C1 (amended): on a cache miss, the stream makes exactly one web-search
escalation attempt iff web search is enabled and the oracle's terminal status
is `input_required` or `error` (both statuses map to
`is_task_complete=False / require_user_input=True`, which is what the guard
tests); with a `completed` status, a missing structured response, or web
search disabled there is no attempt. -/
theorem c1_escalation_policy (ec ewc : Bool) (cacheTtl : ℚ) (hashFn : String → Int)
    (cache : CacheDict AgentResult) (q sid : String) (oracle : OracleRun)
    (web : Option (List WebResult)) (now t1 t2 : ℚ)
    (hmiss : ec = true → (CacheManager.get cache (cacheKeyOf hashFn q sid) now).1 = none) :
    (streamRun ec ewc cacheTtl hashFn cache q sid oracle web now t1 t2).escalationAttempts
      = (if ewc && oracleTriggers oracle.structured then 1 else 0) := by
  rw [streamRun_miss ec ewc cacheTtl hashFn cache q sid oracle web now t1 t2 hmiss]
  exact (missStream_escalation ec ewc cacheTtl (cacheKeyOf hashFn q sid) _ q
    oracle web now t1 t2).1

/-- Concrete witness for C1: empty cache (a miss), web search enabled, oracle
status `input_required` — exactly one escalation attempt. -/
theorem c1_escalation_policy_witness :
    ((true : Bool) = true →
      (CacheManager.get ([] : CacheDict AgentResult)
        (cacheKeyOf (fun _ => 0) "q" "s") 0).1 = none)
    ∧ (streamRun true true 3600 (fun _ => 0) [] "q" "s"
        ⟨[], some ⟨RStatus.input_required, "m", 1/2, []⟩⟩ (some []) 0 1 2).escalationAttempts
      = (if true && oracleTriggers (some ⟨RStatus.input_required, "m", 1/2, []⟩)
          then 1 else 0) :=
  ⟨fun _ => by decide,
    c1_escalation_policy true true 3600 (fun _ => 0) [] "q" "s"
      ⟨[], some ⟨RStatus.input_required, "m", 1/2, []⟩⟩ (some []) 0 1 2
      (fun _ => by decide)⟩

/-! ## Claim C4 — cache short-circuit -/

/-- C4: after an answer is stored under the derived key, a second `stream` of
the same query and session strictly within the TTL yields that answer as its
single terminal event with `from_cache = true`, emits no progress events,
never invokes the oracle, and makes no web-search attempt. -/
theorem c4_cache_short_circuit (ewc : Bool) (cacheTtl : ℚ) (hashFn : String → Int)
    (cache : CacheDict AgentResult) (q sid : String) (ans : AgentResult)
    (ttl t0 now t1 t2 : ℚ) (oracle : OracleRun) (web : Option (List WebResult))
    (hlive : now - t0 < ttl) :
    (streamRun true ewc cacheTtl hashFn
        (CacheManager.set cache (cacheKeyOf hashFn q sid) ans ttl t0)
        q sid oracle web now t1 t2).events
      = [StreamEvent.final { ans with from_cache := true, processing_time := t1 }]
    ∧ (streamRun true ewc cacheTtl hashFn
        (CacheManager.set cache (cacheKeyOf hashFn q sid) ans ttl t0)
        q sid oracle web now t1 t2).oracleInvoked = false
    ∧ (streamRun true ewc cacheTtl hashFn
        (CacheManager.set cache (cacheKeyOf hashFn q sid) ans ttl t0)
        q sid oracle web now t1 t2).escalationAttempts = 0 := by
  have hget := get_after_set_live cache (cacheKeyOf hashFn q sid) ans ttl t0 now hlive
  refine ⟨?_, ?_, ?_⟩ <;> simp [streamRun, hget]

/-- Concrete witness for C4: store at time 0 with ttl 3600, re-submit at
time 1. -/
theorem c4_cache_short_circuit_witness :
    ((1 : ℚ) - 0 < 3600)
    ∧ (streamRun true true 3600 (fun _ => 0)
        (CacheManager.set [] (cacheKeyOf (fun _ => 0) "q" "s")
          (⟨true, false, "m", 1, [], false, 0, []⟩ : AgentResult) 3600 0)
        "q" "s" ⟨["rag_search"], some ⟨RStatus.completed, "x", 1, []⟩⟩ (some []) 1 2 3).events
      = [StreamEvent.final
          { (⟨true, false, "m", 1, [], false, 0, []⟩ : AgentResult) with
            from_cache := true, processing_time := 2 }] :=
  ⟨by norm_num,
    (c4_cache_short_circuit true 3600 (fun _ => 0) [] "q" "s"
      ⟨true, false, "m", 1, [], false, 0, []⟩ 3600 0 1 2 3
      ⟨["rag_search"], some ⟨RStatus.completed, "x", 1, []⟩⟩ (some [])
      (by norm_num)).1⟩

/-! ## Claim C9 — (non-)immutability of the cached answer -/

/-- C9 counterexample: serving a cache hit mutates the stored Structured
Answer in place.  A completed answer is stored with `from_cache = false`; after
one cache-hit `stream` of the same key, the very slot held by the cache
carries `from_cache = true` — a later pipeline operation modified a field of
the stored answer, contradicting immutability. -/
theorem c9_stored_answer_mutated_by_hit :
    ((CacheManager.set ([] : CacheDict AgentResult)
          (cacheKeyOf (fun _ => 0) "q" "s")
          ⟨true, false, "m", 1, [], false, 0, []⟩ 3600 0).find?
        (fun p => p.1 == cacheKeyOf (fun _ => 0) "q" "s")).map
          (fun p => p.2.value.from_cache) = some false
    ∧ (((streamRun true false 3600 (fun _ => 0)
          (CacheManager.set ([] : CacheDict AgentResult)
            (cacheKeyOf (fun _ => 0) "q" "s")
            ⟨true, false, "m", 1, [], false, 0, []⟩ 3600 0)
          "q" "s" ⟨[], none⟩ none 1 5 6).cacheAfter.find?
        (fun p => p.1 == cacheKeyOf (fun _ => 0) "q" "s")).map
          (fun p => p.2.value.from_cache) = some true) := by
  have hget := get_after_set_live ([] : CacheDict AgentResult)
    (cacheKeyOf (fun _ => 0) "q" "s")
    (⟨true, false, "m", 1, [], false, 0, []⟩ : AgentResult) 3600 0 1 (by norm_num)
  have hset : CacheManager.set ([] : CacheDict AgentResult)
      (cacheKeyOf (fun _ => 0) "q" "s")
      (⟨true, false, "m", 1, [], false, 0, []⟩ : AgentResult) 3600 0
      = [(cacheKeyOf (fun _ => 0) "q" "s",
          ⟨⟨true, false, "m", 1, [], false, 0, []⟩, 0, 3600⟩)] := rfl
  constructor
  · rw [hset]
    simp [List.find?_cons_of_pos]
  · rw [hset] at hget
    simp [streamRun, hget, hset]

/-- C9 (amended): the pipeline does mutate a stored answer, in exactly one
place — serving a cache hit rewrites the stored entry's value in place with
`from_cache := true` and `processing_time :=` the new elapsed reading, leaving
`message`, `confidence`, `sources`, the status flags, and the entry's
timestamp and ttl unchanged, and leaving every other cache entry untouched. -/
theorem c9_hit_updates_flags_only (ewc : Bool) (cacheTtl : ℚ) (hashFn : String → Int)
    (cache : CacheDict AgentResult) (q sid : String) (e : CacheEntry AgentResult)
    (oracle : OracleRun) (web : Option (List WebResult)) (now t1 t2 : ℚ)
    (hfind : cache.find? (fun p => p.1 == cacheKeyOf hashFn q sid)
        = some (cacheKeyOf hashFn q sid, e))
    (hlive : now - e.timestamp < e.ttl) :
    (streamRun true ewc cacheTtl hashFn cache q sid oracle web now t1 t2).cacheAfter
      = cache.map (fun p =>
          if p.1 == cacheKeyOf hashFn q sid
          then (p.1, { p.2 with value :=
                { e.value with from_cache := true, processing_time := t1 } })
          else p)
    ∧ (streamRun true ewc cacheTtl hashFn cache q sid oracle web now t1 t2).finalResult
      = { e.value with from_cache := true, processing_time := t1 } := by
  have hget : CacheManager.get cache (cacheKeyOf hashFn q sid) now
      = (some e.value, cache) := by
    unfold CacheManager.get
    rw [hfind]
    simp [hlive]
  constructor <;> simp [streamRun, hget]

/-- Concrete witness for C9's amended theorem: a one-entry cache, hit at
time 1 within ttl 3600. -/
theorem c9_hit_updates_flags_only_witness :
    (([(cacheKeyOf (fun _ => 0) "q" "s",
        (⟨⟨true, false, "m", 1, [], false, 0, []⟩, 0, 3600⟩ : CacheEntry AgentResult))]
        : CacheDict AgentResult).find?
        (fun p => p.1 == cacheKeyOf (fun _ => 0) "q" "s")
      = some (cacheKeyOf (fun _ => 0) "q" "s",
          ⟨⟨true, false, "m", 1, [], false, 0, []⟩, 0, 3600⟩))
    ∧ ((1 : ℚ) - 0 < 3600)
    ∧ (streamRun true false 3600 (fun _ => 0)
        [(cacheKeyOf (fun _ => 0) "q" "s",
          ⟨⟨true, false, "m", 1, [], false, 0, []⟩, 0, 3600⟩)]
        "q" "s" ⟨[], none⟩ none 1 5 6).finalResult
      = { (⟨true, false, "m", 1, [], false, 0, []⟩ : AgentResult) with
          from_cache := true, processing_time := 5 } :=
  ⟨by decide, by norm_num,
    (c9_hit_updates_flags_only false 3600 (fun _ => 0)
      [(cacheKeyOf (fun _ => 0) "q" "s",
        ⟨⟨true, false, "m", 1, [], false, 0, []⟩, 0, 3600⟩)]
      "q" "s" ⟨⟨true, false, "m", 1, [], false, 0, []⟩, 0, 3600⟩
      ⟨[], none⟩ none 1 5 6 (by decide) (by norm_num)).2⟩

/-! ## Claim C5 — web-search escalation synthesis -/

/-- C5 counterexample: with empty web results the code does not always reuse
the original message text — when the original message is the empty string, the
Python `or` substitutes the fixed placeholder, so the synthesized content is
the placeholder and differs from the original message. -/
theorem c5_empty_results_placeholder_content :
    (streamRun false true 3600 (fun _ => 0) [] "q" "s"
      ⟨[], some ⟨RStatus.input_required, "", 1/2, []⟩⟩ (some []) 0 1 2).finalResult.content
      = "Không thể truy cập công cụ tìm kiếm web lúc này."
    ∧ ¬ ((streamRun false true 3600 (fun _ => 0) [] "q" "s"
      ⟨[], some ⟨RStatus.input_required, "", 1/2, []⟩⟩ (some []) 0 1 2).finalResult.content
      = "") := by
  decide

/-- C5 (amended): on every escalation, web search is invoked with the
original query text and `max_results = 3`; with non-empty results the
synthesized terminal answer has confidence 0.6, sources = up to 3 non-empty
result links, status completed, and message = top snippet + "\n\nNguồn: " +
top link (just the snippet when the link is empty; a fixed placeholder when
that synthesis is empty); with empty results it has confidence 0.5, no
sources, status completed, and content = the original message when non-empty,
a fixed placeholder otherwise. -/
theorem c5_web_fallback_synthesis (ec : Bool) (cacheTtl : ℚ) (hashFn : String → Int)
    (cache : CacheDict AgentResult) (q sid : String) (oracle : OracleRun)
    (rs : List WebResult) (now t1 t2 : ℚ) (out : StreamOutcome)
    (hmiss : ec = true → (CacheManager.get cache (cacheKeyOf hashFn q sid) now).1 = none)
    (htrig : oracleTriggers oracle.structured = true)
    (hout : out = streamRun ec true cacheTtl hashFn cache q sid oracle (some rs) now t1 t2) :
    out.webSearchArgs = some (q, 3)
    ∧ out.escalationAttempts = 1
    ∧ out.finalResult.is_task_complete = true
    ∧ out.finalResult.require_user_input = false
    ∧ out.finalResult.processing_time = t2
    ∧ (rs = [] →
        out.finalResult.confidence = 1/2
        ∧ out.finalResult.sources = []
        ∧ out.finalResult.content
            = pyOr (getAgentResponse oracle.structured).content
                "Không thể truy cập công cụ tìm kiếm web lúc này.")
    ∧ (∀ top rest, rs = top :: rest →
        out.finalResult.confidence = 6/10
        ∧ out.finalResult.sources
            = ((rs.filter (fun r => r.link ≠ "")).map (fun r => r.link)).take 3
        ∧ out.finalResult.content
            = pyOr (if top.link ≠ "" then top.snippet ++ "\n\nNguồn: " ++ top.link
                    else top.snippet)
                "Không tìm thấy thông tin phù hợp trên web.") := by
  subst hout
  rw [streamRun_miss ec true cacheTtl hashFn cache q sid oracle (some rs) now t1 t2 hmiss]
  obtain ⟨tc, st⟩ := oracle
  rcases st with _ | ⟨s, msg, conf, srcs⟩
  · simp [oracleTriggers] at htrig
  · cases s with
    | completed => simp [oracleTriggers] at htrig
    | input_required =>
      rcases rs with _ | ⟨top, rest⟩ <;>
        simp [missStream, getAgentResponse, finishStream, List.cons.injEq]
    | error =>
      rcases rs with _ | ⟨top, rest⟩ <;>
        simp [missStream, getAgentResponse, finishStream, List.cons.injEq]

/-- Concrete witness for C5's amended theorem: the spec's scenario — query
about iPhone 15, one web result with snippet and link. -/
theorem c5_web_fallback_synthesis_witness :
    oracleTriggers (some ⟨RStatus.input_required, "need more info", 1/2, []⟩) = true
    ∧ (streamRun false true 3600 (fun _ => 0) [] "Thông tin về iPhone 15" "s"
        ⟨[], some ⟨RStatus.input_required, "need more info", 1/2, []⟩⟩
        (some [⟨"X", "iPhone 15 info", "http://x"⟩]) 0 1 2).webSearchArgs
      = some ("Thông tin về iPhone 15", 3)
    ∧ (streamRun false true 3600 (fun _ => 0) [] "Thông tin về iPhone 15" "s"
        ⟨[], some ⟨RStatus.input_required, "need more info", 1/2, []⟩⟩
        (some [⟨"X", "iPhone 15 info", "http://x"⟩]) 0 1 2).finalResult.sources
      = ((([⟨"X", "iPhone 15 info", "http://x"⟩] : List WebResult).filter
          (fun r => r.link ≠ "")).map (fun r => r.link)).take 3 :=
  ⟨by decide,
    (c5_web_fallback_synthesis false 3600 (fun _ => 0) [] "Thông tin về iPhone 15" "s"
      ⟨[], some ⟨RStatus.input_required, "need more info", 1/2, []⟩⟩
      [⟨"X", "iPhone 15 info", "http://x"⟩] 0 1 2 _
      (fun h => nomatch h) (by decide) rfl).1,
    ((c5_web_fallback_synthesis false 3600 (fun _ => 0) [] "Thông tin về iPhone 15" "s"
      ⟨[], some ⟨RStatus.input_required, "need more info", 1/2, []⟩⟩
      [⟨"X", "iPhone 15 info", "http://x"⟩] 0 1 2 _
      (fun h => nomatch h) (by decide) rfl).2.2.2.2.2.2
      ⟨"X", "iPhone 15 info", "http://x"⟩ [] rfl).2.1⟩

/-! ## Vector store lemmas -/

lemma formatResults_relevance (metas : Option (List (List (String × String))))
    (dists : Option (List ℚ)) :
    ∀ (docs : List String) (i : ℕ) (out : List SearchResult),
      formatResults metas dists docs i = Except.ok out →
      ∀ r ∈ out, r.relevance_score = round3 (1 - r.distance) := by
  intro docs
  induction docs with
  | nil =>
    intro i out h r hr
    unfold formatResults at h
    injection h with h2
    subst h2
    cases hr
  | cons d rest ih =>
    intro i out h r hr
    unfold formatResults at h
    cases hm : metaAt metas i with
    | error e => rw [hm] at h; cases h
    | ok mv =>
      rw [hm] at h
      cases hd : distAt dists i with
      | error e => rw [hd] at h; cases h
      | ok dv =>
        rw [hd] at h
        cases hrec : formatResults metas dists rest (i + 1) with
        | error e => rw [hrec] at h; cases h
        | ok rest2 =>
          rw [hrec] at h
          injection h with h2
          subst h2
          rcases List.mem_cons.mp hr with heq | hmem
          · subst heq; rfl
          · exact ih (i + 1) rest2 hrec r hmem

lemma formatResults_distances_some (metas : Option (List (List (String × String))))
    (ds : List ℚ) :
    ∀ (docs : List String) (i : ℕ) (out : List SearchResult),
      formatResults metas (some ds) docs i = Except.ok out →
      out.map (fun r => r.distance) = (ds.drop i).take docs.length := by
  intro docs
  induction docs with
  | nil =>
    intro i out h
    unfold formatResults at h
    injection h with h2
    subst h2
    simp
  | cons d rest ih =>
    intro i out h
    unfold formatResults at h
    cases hm : metaAt metas i with
    | error e => rw [hm] at h; cases h
    | ok mv =>
      rw [hm] at h
      cases hd : distAt (some ds) i with
      | error e => rw [hd] at h; cases h
      | ok dv =>
        rw [hd] at h
        cases hrec : formatResults metas (some ds) rest (i + 1) with
        | error e => rw [hrec] at h; cases h
        | ok rest2 =>
          rw [hrec] at h
          injection h with h2
          subst h2
          have hget : ds.get? i = some dv := by
            simp only [distAt] at hd
            cases hg : ds.get? i with
            | none => rw [hg] at hd; cases hd
            | some x =>
              rw [hg] at hd
              injection hd with h3
              rw [h3]
          obtain ⟨hlt, hgi⟩ := List.get?_eq_some.mp hget
          have hdi : ds[i] = dv := by
            rw [← hgi]
            rfl
          have hdrop : ds.drop i = dv :: ds.drop (i + 1) := by
            rw [List.drop_eq_getElem_cons hlt, hdi]
          rw [List.map_cons, ih (i + 1) rest2 hrec, hdrop]
          simp

lemma formatResults_distances_none (metas : Option (List (List (String × String)))) :
    ∀ (docs : List String) (i : ℕ) (out : List SearchResult),
      formatResults metas none docs i = Except.ok out →
      out.map (fun r => r.distance) = List.replicate docs.length (0 : ℚ) := by
  intro docs
  induction docs with
  | nil =>
    intro i out h
    unfold formatResults at h
    injection h with h2
    subst h2
    simp
  | cons d rest ih =>
    intro i out h
    unfold formatResults at h
    cases hm : metaAt metas i with
    | error e => rw [hm] at h; cases h
    | ok mv =>
      rw [hm] at h
      have hd : distAt (none : Option (List ℚ)) i = Except.ok 0 := rfl
      rw [hd] at h
      cases hrec : formatResults metas none rest (i + 1) with
      | error e => rw [hrec] at h; cases h
      | ok rest2 =>
        rw [hrec] at h
        injection h with h2
        subst h2
        rw [List.map_cons, ih (i + 1) rest2 hrec]
        simp [List.replicate_succ]

lemma pairwise_le_replicate (n : ℕ) :
    List.Pairwise (fun a b : ℚ => a ≤ b) (List.replicate n 0) := by
  induction n with
  | zero => simp
  | succ k ih =>
    rw [List.replicate_succ]
    refine List.Pairwise.cons ?_ ih
    intro b hb
    exact le_of_eq (List.eq_of_mem_replicate hb).symm

/-! ## Claim C6 — embedding fallback length -/

/-- C6: on a provider fault, `get_embedding` returns the deterministic
hash-based fallback — but that fallback always has length 32 (an MD5
hexdigest has 32 characters, so the `[:384]` slice is vacuous), not the
expected fixed embedding length (the code's own slice bound, 384; the
primary `text-embedding-004` path yields 768-dimensional vectors). -/
theorem c6_fallback_embedding_is_32_long (provider : String → Option (List ℚ))
    (md5hex : String → String) (text : String)
    (hmd5 : ∀ t, (md5hex t).length = 32) (hfault : provider text = none) :
    VectorStore.get_embedding provider md5hex text = fallbackEmbedding md5hex text
    ∧ (VectorStore.get_embedding provider md5hex text).length = 32
    ∧ ¬ (32 : ℕ) = 384 ∧ ¬ (32 : ℕ) = 768 := by
  have h1 : VectorStore.get_embedding provider md5hex text
      = fallbackEmbedding md5hex text := by
    unfold VectorStore.get_embedding
    rw [hfault]
  refine ⟨h1, ?_, by omega, by omega⟩
  rw [h1]
  unfold fallbackEmbedding
  rw [List.length_map, List.length_take]
  have h2 : (md5hex text).data.length = 32 := hmd5 text
  omega

/-- Concrete witness for C6: an explicit 32-character hexdigest function and
a faulting provider. -/
theorem c6_fallback_embedding_is_32_long_witness :
    (∀ t : String,
      ((fun _ : String => "0123456789abcdef0123456789abcdef") t).length = 32)
    ∧ ((fun _ : String => (none : Option (List ℚ))) "iPhone 15" = none)
    ∧ (VectorStore.get_embedding (fun _ => none)
        (fun _ => "0123456789abcdef0123456789abcdef") "iPhone 15").length = 32 :=
  ⟨fun _ => rfl, rfl,
    (c6_fallback_embedding_is_32_long (fun _ => none)
      (fun _ => "0123456789abcdef0123456789abcdef") "iPhone 15"
      (fun _ => rfl) rfl).2.1⟩

/-! ## Claim C7 — search error handling, scoring, ordering -/

/-- C7: `VectorStore.search` is total; when the Chroma query raises it
returns the empty sequence; every result it does return carries
`relevance_score = round(1 - distance, 3)`; and (under the similarity-query
collaborator contract that returned distances are ascending) the results are
non-decreasing in distance. -/
theorem c7_search_degrades_and_scores (provider : String → Option (List ℚ))
    (md5hex : String → String)
    (chroma : List ℚ → ℕ → Except String ChromaResult)
    (query : String) (k : Option ℕ) :
    (∀ e, chroma (VectorStore.get_embedding provider md5hex query) (kDefault k)
          = Except.error e →
        VectorStore.search provider md5hex chroma query k = [])
    ∧ (∀ r ∈ VectorStore.search provider md5hex chroma query k,
        r.relevance_score = round3 (1 - r.distance))
    ∧ (∀ res, chroma (VectorStore.get_embedding provider md5hex query) (kDefault k)
          = Except.ok res →
        (∀ ds, res.distances = some ds → List.Pairwise (fun a b : ℚ => a ≤ b) ds) →
        List.Pairwise (fun r s : SearchResult => r.distance ≤ s.distance)
          (VectorStore.search provider md5hex chroma query k)) := by
  refine ⟨?_, ?_, ?_⟩
  · intro e he
    unfold VectorStore.search
    rw [he]
  · intro r hr
    unfold VectorStore.search at hr
    split at hr
    · cases hr
    · split at hr
      · cases hr
      · split at hr
        · cases hr
        · split at hr
          · cases hr
          · rename_i out hfmt
            exact formatResults_relevance _ _ _ _ out hfmt r hr
  · intro res hres hsorted
    unfold VectorStore.search
    split
    · exact List.Pairwise.nil
    · rename_i res' heq
      rw [hres] at heq
      injection heq with heq2
      subst heq2
      split
      · exact List.Pairwise.nil
      · rename_i docs hdocs
        split
        · exact List.Pairwise.nil
        · split
          · exact List.Pairwise.nil
          · rename_i hnil out hfmt
            cases hdist : res.distances with
            | none =>
              rw [hdist] at hfmt
              have hmap := formatResults_distances_none res.metadatas docs 0 out hfmt
              have hp : List.Pairwise (fun a b : ℚ => a ≤ b)
                  (out.map (fun r => r.distance)) := by
                rw [hmap]
                exact pairwise_le_replicate _
              exact List.pairwise_map.mp hp
            | some ds =>
              rw [hdist] at hfmt
              have hds := hsorted ds hdist
              have hmap := formatResults_distances_some res.metadatas ds docs 0 out hfmt
              have hsub : ((ds.drop 0).take docs.length).Sublist ds :=
                (List.take_sublist _ _).trans (List.drop_sublist _ _)
              have hp : List.Pairwise (fun a b : ℚ => a ≤ b)
                  (out.map (fun r => r.distance)) := by
                rw [hmap]
                exact List.Pairwise.sublist hsub hds
              exact List.pairwise_map.mp hp

/-- Concrete witness for C7: a two-document query result with ascending
distances. -/
theorem c7_search_degrades_and_scores_witness :
    ((fun (_ : List ℚ) (_ : ℕ) =>
        (Except.ok ⟨some ["d1", "d2"], none, some [1/10, 2/10]⟩
          : Except String ChromaResult))
      (VectorStore.get_embedding (fun _ => some [1]) (fun _ => "h") "q") (kDefault none)
      = Except.ok (⟨some ["d1", "d2"], none, some [1/10, 2/10]⟩ : ChromaResult))
    ∧ List.Pairwise (fun r s : SearchResult => r.distance ≤ s.distance)
        (VectorStore.search (fun _ => some [1]) (fun _ => "h")
          (fun (_ : List ℚ) (_ : ℕ) =>
            (Except.ok ⟨some ["d1", "d2"], none, some [1/10, 2/10]⟩
              : Except String ChromaResult))
          "q" none) :=
  ⟨rfl,
    (c7_search_degrades_and_scores (fun _ => some [1]) (fun _ => "h")
      (fun (_ : List ℚ) (_ : ℕ) =>
        (Except.ok ⟨some ["d1", "d2"], none, some [1/10, 2/10]⟩
          : Except String ChromaResult))
      "q" none).2.2 ⟨some ["d1", "d2"], none, some [1/10, 2/10]⟩ rfl
      (fun ds h => by
        have h2 : some ([1/10, 2/10] : List ℚ) = some ds := h
        injection h2 with h3
        subst h3
        norm_num [List.pairwise_cons])⟩

/-! ## Claim C8 — request validation -/

lemma pyStrip_length_le (s : String) : (pyStrip s).length ≤ s.length := by
  have h1 : (pyStrip s).length
      = (((s.data.dropWhile Char.isWhitespace).reverse.dropWhile
            Char.isWhitespace).reverse).length := rfl
  rw [h1, List.length_reverse]
  calc ((s.data.dropWhile Char.isWhitespace).reverse.dropWhile
          Char.isWhitespace).length
      ≤ ((s.data.dropWhile Char.isWhitespace).reverse).length :=
        (List.dropWhile_sublist _).length_le
    _ = (s.data.dropWhile Char.isWhitespace).length := List.length_reverse _
    _ ≤ s.data.length := (List.dropWhile_sublist _).length_le

/-- C8: a request whose text is empty, shorter than 2 characters, or longer
than the configured maximum is rejected immediately as `InvalidParamsError`:
no oracle invocation, no cache write, and `failed_requests` (alone among the
success/cache counters) is incremented by exactly one. -/
theorem c8_invalid_request_rejected (maxLen : ℕ) (ec ewc : Bool) (cacheTtl : ℚ)
    (hashFn : String → Int) (m : Metrics) (cache : CacheDict AgentResult)
    (r : ExecRequest) (o : ExecOutcome)
    (hbad : r.text = "" ∨ r.text.length < 2 ∨ maxLen < r.text.length)
    (ho : o = executeRun maxLen ec ewc cacheTtl hashFn m cache r) :
    o.raised = some ExecError.invalidParams
    ∧ o.oracleInvoked = false
    ∧ o.cacheAfter = cache
    ∧ o.metrics.failed_requests = m.failed_requests + 1
    ∧ o.metrics.successful_requests = m.successful_requests
    ∧ o.metrics.cache_hits = m.cache_hits
    ∧ o.metrics.cache_misses = m.cache_misses := by
  subst ho
  have hval : validateRequest maxLen r.text = true := by
    unfold validateRequest
    by_cases h1 : r.text = "" ∨ (pyStrip r.text).length < 2
    · rw [if_pos h1]
    · rcases hbad with h | h | h
      · exact absurd (Or.inl h) h1
      · exact absurd (Or.inr (lt_of_le_of_lt (pyStrip_length_le _) h)) h1
      · rw [if_neg h1, if_pos h]
  simp [executeRun, hval]

/-- Concrete witness for C8: the spec's scenario, a 1-character query. -/
theorem c8_invalid_request_rejected_witness :
    ("a".length < 2)
    ∧ (executeRun 4000 true true 3600 (fun _ => 0) metricsZero []
        ⟨"a", "c", ⟨[], none⟩, none, false, 0, 0, 0, 0⟩).raised
      = some ExecError.invalidParams
    ∧ (executeRun 4000 true true 3600 (fun _ => 0) metricsZero []
        ⟨"a", "c", ⟨[], none⟩, none, false, 0, 0, 0, 0⟩).metrics.failed_requests
      = metricsZero.failed_requests + 1 :=
  ⟨by decide,
    (c8_invalid_request_rejected 4000 true true 3600 (fun _ => 0) metricsZero []
      ⟨"a", "c", ⟨[], none⟩, none, false, 0, 0, 0, 0⟩ _
      (Or.inr (Or.inl (by decide))) rfl).1,
    (c8_invalid_request_rejected 4000 true true 3600 (fun _ => 0) metricsZero []
      ⟨"a", "c", ⟨[], none⟩, none, false, 0, 0, 0, 0⟩ _
      (Or.inr (Or.inl (by decide))) rfl).2.2.2.1⟩

/-! ## Claim C10 — the dead cache_hits counter -/

lemma executeRun_cache_hits (maxLen : ℕ) (ec ewc : Bool) (cacheTtl : ℚ)
    (hashFn : String → Int) (m : Metrics) (cache : CacheDict AgentResult)
    (r : ExecRequest) :
    (executeRun maxLen ec ewc cacheTtl hashFn m cache r).metrics.cache_hits
      = m.cache_hits := by
  unfold executeRun
  by_cases hv : validateRequest maxLen r.text = true
  · simp [hv]
  · by_cases hf : r.processingFault = true
    · simp [hv, hf]
    · simp [hv, hf]

/-- C10: the `cache_hits` counter is dead code — the guard tests an unbound
local, so no execution path increments it: after any sequence of requests
`cache_hits = 0`, and every successfully processed request increments
`cache_misses` (even one served from the cache). -/
theorem c10_cache_hits_never_incremented :
    (∀ (maxLen : ℕ) (ec ewc : Bool) (cacheTtl : ℚ) (hashFn : String → Int)
        (reqs : List ExecRequest),
      (runExecutes maxLen ec ewc cacheTtl hashFn (metricsZero, []) reqs).1.cache_hits = 0)
    ∧ (∀ (maxLen : ℕ) (ec ewc : Bool) (cacheTtl : ℚ) (hashFn : String → Int)
        (m : Metrics) (cache : CacheDict AgentResult) (r : ExecRequest),
        (executeRun maxLen ec ewc cacheTtl hashFn m cache r).metrics.cache_hits
            = m.cache_hits
        ∧ ((executeRun maxLen ec ewc cacheTtl hashFn m cache r).raised = none →
            (executeRun maxLen ec ewc cacheTtl hashFn m cache r).metrics.cache_misses
              = m.cache_misses + 1)) := by
  constructor
  · intro maxLen ec ewc cacheTtl hashFn reqs
    suffices h : ∀ st : Metrics × CacheDict AgentResult,
        (runExecutes maxLen ec ewc cacheTtl hashFn st reqs).1.cache_hits
          = st.1.cache_hits by
      simpa using h (metricsZero, [])
    unfold runExecutes
    induction reqs with
    | nil => intro st; rfl
    | cons r rest ih =>
      intro st
      rw [List.foldl_cons]
      rw [ih]
      exact executeRun_cache_hits maxLen ec ewc cacheTtl hashFn st.1 st.2 r
  · intro maxLen ec ewc cacheTtl hashFn m cache r
    refine ⟨executeRun_cache_hits maxLen ec ewc cacheTtl hashFn m cache r, ?_⟩
    intro hnone
    unfold executeRun at hnone ⊢
    by_cases hv : validateRequest maxLen r.text = true
    · simp [hv] at hnone
    · by_cases hf : r.processingFault = true
      · simp [hv, hf] at hnone
      · simp [hv, hf]

/-- Concrete witness for C10: one successfully processed request — the miss
counter advances, the hit counter does not. -/
theorem c10_cache_hits_never_incremented_witness :
    (executeRun 4000 false false 3600 (fun _ => 0) metricsZero []
        ⟨"hello", "c", ⟨[], none⟩, none, false, 0, 0, 0, 0⟩).raised = none
    ∧ (executeRun 4000 false false 3600 (fun _ => 0) metricsZero []
        ⟨"hello", "c", ⟨[], none⟩, none, false, 0, 0, 0, 0⟩).metrics.cache_hits
      = metricsZero.cache_hits
    ∧ (executeRun 4000 false false 3600 (fun _ => 0) metricsZero []
        ⟨"hello", "c", ⟨[], none⟩, none, false, 0, 0, 0, 0⟩).metrics.cache_misses
      = metricsZero.cache_misses + 1 :=
  ⟨by decide,
    (c10_cache_hits_never_incremented.2 4000 false false 3600 (fun _ => 0)
      metricsZero [] ⟨"hello", "c", ⟨[], none⟩, none, false, 0, 0, 0, 0⟩).1,
    (c10_cache_hits_never_incremented.2 4000 false false 3600 (fun _ => 0)
      metricsZero [] ⟨"hello", "c", ⟨[], none⟩, none, false, 0, 0, 0, 0⟩).2
      (by decide)⟩

end A2ASpec
